import Mathlib

/-!
The `gitlab_branch` resource and the group deletion poll.

A shallow embedding of `gitlab/resource_gitlab_branch.go` (schema, create, read, delete,
`flattenCommit`) and of the polling check `testAccCheckGitlabGroupDisappears` of
`gitlab/resource_gitlab_group_test.go`, followed by the properties proved about them.

Conventions of the embedding:

* a Go pointer or interface that may be `nil` is an `Option`; a slice that may be `nil` is a
  `Slice` (`none` is the nil slice);
* the remote API client is a record of transition functions over an abstract remote state `σ`;
  every operation returns the calls it issued, in order;
* an expression that can dereference a nil pointer evaluates to an `OrPanic`;
* `log.Printf` has no effect on any value and is left out.
-/

set_option autoImplicit false

namespace Gitlab

/-! ## Values of the client library -/

/-- Go `error` value, given by the text of its `Error()` method. -/
structure GoError where
  Error : String
  deriving DecidableEq, Repr

/-- Response of the client library; only the HTTP status code is read by this code. -/
structure Response where
  StatusCode : Int
  deriving DecidableEq, Repr

/-- Timestamp of the client library (`commit.AuthoredDate`, `commit.CommittedDate`,
`group.MarkedForDeletionOn`). The code only calls `String()` on it or compares a pointer to
it with `nil`, so a timestamp is given by the text `String()` renders. -/
structure Time where
  String : String
  deriving DecidableEq, Repr

/-- The fields of `gitlab.Commit` that `flattenCommit` reads. The two dates are `*time.Time`
in the client library and may be nil. -/
structure Commit where
  ID : String
  ShortID : String
  Title : String
  AuthorName : String
  AuthorEmail : String
  AuthoredDate : Option Time
  CommitterName : String
  CommitterEmail : String
  CommittedDate : Option Time
  Message : String
  ParentIDs : List String
  deriving DecidableEq, Repr

/-- The fields of `gitlab.Branch` that the read callback reads. -/
structure Branch where
  Commit : Option Commit
  Name : String
  Protected : Bool
  Default : Bool
  CanPush : Bool
  DevelopersCanPush : Bool
  DevelopersCanMerge : Bool
  Merged : Bool
  WebURL : String
  deriving DecidableEq, Repr

/-- `gitlab.CreateBranchOptions`: both fields are `*string`. -/
structure CreateBranchOptions where
  Branch : Option String
  Ref : Option String
  deriving DecidableEq, Repr

/-! ## Values stored in the resource data -/

/-- Go slice: `none` is the nil slice, `some l` a non-nil slice with elements `l`. -/
abbrev Slice (α : Type) := Option (List α)

/-- Go `len` of a slice (0 for the nil slice). -/
def Slice.len {α : Type} (s : Slice α) : Nat :=
  match s with
  | none => 0
  | some l => l.length

/-- An `interface{}` stored in the map built by `flattenCommit`: a `string` or a `[]string`. -/
inductive Field where
  | string (s : String)
  | strings (l : List String)
  deriving DecidableEq, Repr

/-- Go `map[string]interface{}` written as a literal: its entries in the order of the literal.
Lookup is by key. -/
abbrev CommitMap := List (String × Field)

/-- An `interface{}` passed to `d.Set` or returned by `d.Get` in this resource. -/
inductive Value where
  | string (s : String)
  | bool (b : Bool)
  | list (l : Slice CommitMap)
  deriving DecidableEq, Repr

/-- Type assertion `.(string)`. The SDK returns every attribute at the type of its schema, so
the failing branch is not reached from `d.Get` of a `TypeString` attribute; it yields the zero
value here. -/
def Value.asString : Value → String
  | .string s => s
  | _ => ""

/-! ## flattenCommit -/

/-- Evaluation of a Go expression that may dereference a nil pointer: the value it yields, or
the run-time panic. -/
inductive OrPanic (α : Type) where
  | ok (value : α)
  | panic
  deriving DecidableEq, Repr

/-- Embedding of `flattenCommit` (resource_gitlab_branch.go, lines 186-206). The keys are those
of the source literal, in its order. `commit.AuthoredDate.String()` (line 198) and
`commit.CommittedDate.String()` (line 199) call a value method through the pointer, with no
nil test before: on a nil date the call panics. -/
def flattenCommit (commit : Option Commit) : OrPanic (Slice CommitMap) :=
  match commit with
  | none => .ok (some [])
  | some commit =>
    match commit.AuthoredDate with
    | none => .panic
    | some authoredDate =>
      match commit.CommittedDate with
      | none => .panic
      | some committedDate =>
        .ok (some [
          [ ("id", .string commit.ID),
            ("short_id", .string commit.ShortID),
            ("title", .string commit.Title),
            ("author_name", .string commit.AuthorName),
            ("author_email", .string commit.AuthorEmail),
            ("authored_date", .string authoredDate.String),
            ("committed_date", .string committedDate.String),
            ("committer_email", .string commit.CommitterEmail),
            ("commiter_name", .string commit.CommitterName),
            ("message", .string commit.Message),
            ("parent_ids", .strings commit.ParentIDs) ] ])

/-! ## Schema -/

/-- The `schema.ValueType` constants used by this resource. -/
inductive ValueType where
  | TypeBool
  | TypeString
  | TypeList
  | TypeSet
  deriving DecidableEq, Repr

/-- Set hash functions of the SDK named by this resource. -/
inductive SchemaSetFunc where
  | HashString
  deriving DecidableEq, Repr

/-- Innermost `&schema.Schema{Type: ...}` given as the `Elem` of a nested attribute. -/
structure ElemSchema where
  Typ : ValueType
  deriving DecidableEq, Repr

/-- `schema.Schema` of an attribute of the nested `commit` resource. Fields absent from a
literal have Go's zero value. -/
structure NestedSchema where
  Typ : ValueType
  ForceNew : Bool := false
  Required : Bool := false
  Optional : Bool := false
  Computed : Bool := false
  Elem : Option ElemSchema := none
  Set : Option SchemaSetFunc := none
  deriving DecidableEq, Repr

/-- `schema.Schema` of a top-level attribute; `Elem`, when set, is the schema map of a nested
`&schema.Resource`. Fields absent from a literal have Go's zero value. -/
structure Schema where
  Typ : ValueType
  ForceNew : Bool := false
  Required : Bool := false
  Optional : Bool := false
  Computed : Bool := false
  Default : Option Value := none
  MaxItems : Nat := 0
  Elem : Option (List (String × NestedSchema)) := none
  deriving DecidableEq, Repr

/-- The schema map nested under `commit` (resource_gitlab_branch.go, lines 66-123). -/
def commitSchema : List (String × NestedSchema) :=
  [ ("id", { Typ := .TypeString, Computed := true }),
    ("author_email", { Typ := .TypeString, Computed := true, Optional := true }),
    ("author_name", { Typ := .TypeString, Computed := true, Optional := true }),
    ("authored_date", { Typ := .TypeString, Computed := true, Optional := true }),
    ("committed_date", { Typ := .TypeString, Computed := true, Optional := true }),
    ("committer_email", { Typ := .TypeString, Computed := true, Optional := true }),
    ("committer_name", { Typ := .TypeString, Computed := true, Optional := true }),
    ("short_id", { Typ := .TypeString, Computed := true, Optional := true }),
    ("title", { Typ := .TypeString, Computed := true, Optional := true }),
    ("message", { Typ := .TypeString, Computed := true, Optional := true }),
    ("parent_ids", { Typ := .TypeSet, Computed := true, Optional := true,
                     Elem := some { Typ := .TypeString }, Set := some .HashString }) ]

/-- The schema map of the branch resource (resource_gitlab_branch.go, lines 15-126). -/
def branchSchema : List (String × Schema) :=
  [ ("name", { Typ := .TypeString, ForceNew := true, Required := true }),
    ("project", { Typ := .TypeString, ForceNew := true, Required := true }),
    ("ref", { Typ := .TypeString, ForceNew := true, Optional := true,
              Default := some (.string "master") }),
    ("web_url", { Typ := .TypeString, Computed := true }),
    ("protected", { Typ := .TypeBool, Computed := true }),
    ("default", { Typ := .TypeBool, Computed := true }),
    ("can_push", { Typ := .TypeBool, Computed := true }),
    ("developer_can_push", { Typ := .TypeBool, Computed := true }),
    ("developer_can_merge", { Typ := .TypeBool, Computed := true }),
    ("merged", { Typ := .TypeBool, Computed := true }),
    ("commit", { Typ := .TypeList, MaxItems := 1, Computed := true, Optional := true,
                 Elem := some commitSchema }) ]

/-- Zero value of a schema type, as `d.Get` returns it for an attribute that is not set. -/
def ValueType.zero : ValueType → Value
  | .TypeBool => .bool false
  | .TypeString => .string ""
  | .TypeList => .list (some [])
  | .TypeSet => .list (some [])

/-! ## Resource data -/

/-- `schema.ResourceData` of a branch: the identifier and the attribute values that are set
(declared in the configuration, kept in the state, or written by `d.Set`). -/
structure ResourceData where
  Id : String
  attrs : String → Option Value

/-- `d.Get(key)`: the value that is set; where none is set, the `Default` of the attribute's
schema, and failing that the zero value of its type. The `Default` is what the SDK reads for
data built from a configuration, as the create callback receives them; of this schema only
`ref` has one, and the statements about a refresh take `ref` as stored. -/
def ResourceData.Get (d : ResourceData) (key : String) : Value :=
  match d.attrs key with
  | some v => v
  | none =>
    match branchSchema.lookup key with
    | some s =>
      match s.Default with
      | some v => v
      | none => s.Typ.zero
    | none => .string ""

/-- Whether the SDK's field writer accepts an entry of an element of a nested list at the
schema type of its key: a `string` for `TypeString`, a `[]string` for a set or list of
strings. -/
def fieldFits : ValueType → Field → Bool
  | .TypeString, .string _ => true
  | .TypeSet, .strings _ => true
  | .TypeList, .strings _ => true
  | _, _ => false

/-- Whether the SDK's field writer accepts a map as an element of a nested list: every key of
the map is an attribute of the nested schema and its entry fits that attribute's type. A key
the nested schema does not declare is refused. -/
def commitMapFits (nested : List (String × NestedSchema)) (m : CommitMap) : Bool :=
  m.all fun entry =>
    match nested.lookup entry.1 with
    | some s => fieldFits s.Typ entry.2
    | none => false

/-- Whether the SDK's field writer accepts a value for an attribute of the given schema: a
`string` for `TypeString`, a `bool` for `TypeBool`, and for a `TypeList` of nested resources
a list all of whose elements are accepted. -/
def valueFits (s : Schema) : Value → Bool
  | .string _ => s.Typ == .TypeString
  | .bool _ => s.Typ == .TypeBool
  | .list l =>
    s.Typ == .TypeList &&
      match s.Elem with
      | some nested => (l.getD []).all (commitMapFits nested)
      | none => false

/-- The resource data with the value written under the key. -/
def ResourceData.store (d : ResourceData) (key : String) (value : Value) : ResourceData :=
  { d with attrs := fun k => if k = key then some value else d.attrs k }

/-- `d.Set(key, value)`: the resource data after the call and the `error` it returns. The SDK
writes the value when the key is an attribute of the schema and the value is accepted for
it; otherwise it writes nothing and returns an error (given here by a text of its own). -/
def ResourceData.Set (d : ResourceData) (key : String) (value : Value) :
    ResourceData × Option GoError :=
  match branchSchema.lookup key with
  | some s =>
    if valueFits s value then (d.store key value, none)
    else (d, some { Error := key ++ ": value not accepted by the schema" })
  | none => (d, some { Error := key ++ ": not an attribute of the schema" })

/-- `d.SetId(v)`. -/
def ResourceData.SetId (d : ResourceData) (v : String) : ResourceData :=
  { d with Id := v }

/-! ## Remote client -/

/-- What `CreateBranch` and `GetBranch` return: `(*Branch, *Response, error)`. -/
structure BranchResult where
  branch : Option Branch
  resp : Option Response
  err : Option GoError
  deriving DecidableEq, Repr

/-- What `DeleteBranch` returns: `(*Response, error)`. -/
structure DeleteResult where
  resp : Option Response
  err : Option GoError
  deriving DecidableEq, Repr

/-- The `client.Branches` service over a remote in state `σ`: each call returns its results
and the remote's next state. -/
structure Client (σ : Type) where
  CreateBranch : String → CreateBranchOptions → σ → BranchResult × σ
  GetBranch : String → String → σ → BranchResult × σ
  DeleteBranch : String → String → σ → DeleteResult × σ

/-- A call issued to the remote client, with its arguments. -/
inductive Call where
  | CreateBranch (pid : String) (opt : CreateBranchOptions)
  | GetBranch (pid : String) (branch : String)
  | DeleteBranch (pid : String) (branch : String)
  deriving DecidableEq, Repr

/-- How a callback ends: it returns its `error` (nil is `none`), or it dereferences a nil
pointer and panics; the resource data of a panicked outcome are those at the panic. -/
inductive Result where
  | returned (err : Option GoError)
  | panicked
  deriving DecidableEq, Repr

/-- Everything a callback leaves behind: how it ended, the resource data, the remote's state
and the calls it issued, in order. -/
structure Outcome (σ : Type) where
  result : Result
  d : ResourceData
  remote : σ
  calls : List Call

/-! ## Callbacks of the branch resource -/

/-- Embedding of `resourceGitlabBranchRead` (resource_gitlab_branch.go, lines 148-172).
`fmt.Sprintf("%s-%s", project, name)` of two strings is their concatenation around "-". The
error each `d.Set` returns is dropped, as in the source; the argument of the last `d.Set`,
`flattenCommit(branch.Commit)`, is evaluated after the calls before it. -/
def resourceGitlabBranchRead {σ : Type} (client : Client σ) (d : ResourceData) (w : σ) :
    Outcome σ :=
  let name := (d.Get "name").asString
  let project := (d.Get "project").asString
  let ref := (d.Get "ref").asString
  let r := client.GetBranch project name w
  let calls := [Call.GetBranch project name]
  match r.1.err with
  | some err => { result := .returned (some err), d := d, remote := r.2, calls := calls }
  | none =>
    match r.1.branch with
    | none => { result := .panicked, d := d.SetId (project ++ "-" ++ name), remote := r.2,
                calls := calls }
    | some branch =>
      let d := d.SetId (project ++ "-" ++ name)
      let d := (d.Set "name" (.string branch.Name)).1
      let d := (d.Set "project" (.string project)).1
      let d := (d.Set "ref" (.string ref)).1
      let d := (d.Set "web_url" (.string branch.WebURL)).1
      let d := (d.Set "default" (.bool branch.Default)).1
      let d := (d.Set "can_push" (.bool branch.CanPush)).1
      let d := (d.Set "protected" (.bool branch.Protected)).1
      let d := (d.Set "merged" (.bool branch.Merged)).1
      let d := (d.Set "developer_can_merge" (.bool branch.DevelopersCanMerge)).1
      let d := (d.Set "developer_can_push" (.bool branch.DevelopersCanPush)).1
      match flattenCommit branch.Commit with
      | .panic => { result := .panicked, d := d, remote := r.2, calls := calls }
      | .ok values =>
        let d := (d.Set "commit" (.list values)).1
        { result := .returned none, d := d, remote := r.2, calls := calls }

/-- Embedding of `resourceGitlabBranchCreate` (resource_gitlab_branch.go, lines 130-146). -/
def resourceGitlabBranchCreate {σ : Type} (client : Client σ) (d : ResourceData) (w : σ) :
    Outcome σ :=
  let name := (d.Get "name").asString
  let project := (d.Get "project").asString
  let ref := (d.Get "ref").asString
  let branchOptions : CreateBranchOptions := { Branch := some name, Ref := some ref }
  let r := client.CreateBranch project branchOptions w
  match r.1.err with
  | some err =>
    { result := .returned (some err), d := d, remote := r.2,
      calls := [Call.CreateBranch project branchOptions] }
  | none =>
    let o := resourceGitlabBranchRead client d r.2
    { o with calls := Call.CreateBranch project branchOptions :: o.calls }

/-- Embedding of `resourceGitlabBranchDelete` (resource_gitlab_branch.go, lines 174-184). -/
def resourceGitlabBranchDelete {σ : Type} (client : Client σ) (d : ResourceData) (w : σ) :
    Outcome σ :=
  let project := (d.Get "project").asString
  let name := (d.Get "name").asString
  let r := client.DeleteBranch project name w
  { result := .returned r.1.err, d := d, remote := r.2,
    calls := [Call.DeleteBranch project name] }

/-- Signature of a lifecycle callback once the client (`meta`) is fixed. -/
abbrev Callback (σ : Type) := Client σ → ResourceData → σ → Outcome σ

/-- `schema.Resource`: the lifecycle callbacks (a field absent from the literal is nil) and
the schema map. -/
structure Resource (σ : Type) where
  Create : Option (Callback σ) := none
  Read : Option (Callback σ) := none
  Update : Option (Callback σ) := none
  Delete : Option (Callback σ) := none
  Schema : List (String × Schema)

/-- Embedding of `resourceGitlabBranch` (resource_gitlab_branch.go, lines 10-128). -/
def resourceGitlabBranch (σ : Type) : Resource σ :=
  { Create := some resourceGitlabBranchCreate,
    Read := some resourceGitlabBranchRead,
    Delete := some resourceGitlabBranchDelete,
    Schema := branchSchema }

/-! ## Identifier codec -/

/-- The text before and the text after the first occurrence of a delimiter; `none` when the
delimiter does not occur. -/
def splitFirst (delim : Char) : List Char → Option (List Char × List Char)
  | [] => none
  | c :: cs =>
    if c = delim then some ([], cs)
    else
      match splitFirst delim cs with
      | some (before, after) => some (c :: before, after)
      | none => none

/-- Modelled from the spec: `parseTwoPartID` is called by the acceptance tests
(resource_gitlab_branch_test.go, lines 106 and 147) and its body is not among the sources. The
spec's identifier codec (section 4.5) decodes "<scope>-<name>" into its two components and
fails with a malformed-identifier condition on a wrong number of parts; its design notes
(section 9) say the source splits naively at the first delimiter, which is also what the test
at line 113 needs for the branch name "testbranch-<n>". -/
def parseTwoPartID (id : String) : Except GoError (String × String) :=
  match splitFirst '-' id.toList with
  | some (scope, name) => .ok (String.mk scope, String.mk name)
  | none => .error { Error := "malformed identifier" }

/-! ## The group deletion poll -/

/-- The fields of `gitlab.Group` that the poll reads. -/
structure Group where
  ID : Int
  MarkedForDeletionOn : Option Time
  deriving DecidableEq, Repr

/-- What `GetGroup` returns: `(*Group, *Response, error)`. -/
structure GroupResult where
  g : Option Group
  resp : Option Response
  err : Option GoError
  deriving DecidableEq, Repr

/-- What one run of the check observes of its environment: the result of `DeleteGroup`, the
value of `time.Since(start)` (a `time.Duration`, in nanoseconds) at each evaluation of the
loop condition, and the result of each `GetGroup` call; evaluations and calls are numbered
from 0, and both calls receive the group identifier. -/
structure PollEnv where
  DeleteGroup : Int → DeleteResult
  Since : Nat → Int
  GetGroup : Nat → Int → GroupResult

/-- Go `time.Second`, in nanoseconds. -/
def Second : Int := 1000000000

/-- Go `http.StatusNotFound`. -/
def StatusNotFound : Int := 404

/-- The error built by the `fmt.Errorf` after the loop. -/
def deadlineError : GoError :=
  { Error := "waited for more than 15 seconds for group to be asynchronously deleted" }

/-- What the check returns (nil is `none`) and how many `GetGroup` calls it issued. -/
structure PollOutcome where
  err : Option GoError
  reads : Nat
  deriving DecidableEq, Repr

/-- First test of the loop body: `resp != nil && resp.StatusCode == http.StatusNotFound`. -/
def GroupResult.notFound (r : GroupResult) : Bool :=
  match r.resp with
  | some resp => resp.StatusCode == StatusNotFound
  | none => false

/-- Second test of the loop body: `g != nil && g.MarkedForDeletionOn != nil`. -/
def GroupResult.marked (r : GroupResult) : Bool :=
  match r.g with
  | some g => g.MarkedForDeletionOn.isSome
  | none => false

/-- The `for` loop of `testAccCheckGitlabGroupDisappears` (resource_gitlab_group_test.go, lines
272-284) from its `i`-th iteration on; `none` when the fuel runs out before the loop ends. -/
def pollLoop (env : PollEnv) (gid : Int) : Nat → Nat → Option PollOutcome
  | 0, _ => none
  | fuel + 1, i =>
    if env.Since i < 15 * Second then
      let r := env.GetGroup i gid
      if r.notFound then some { err := none, reads := i + 1 }
      else if r.marked then some { err := none, reads := i + 1 }
      else
        match r.err with
        | some err => some { err := some err, reads := i + 1 }
        | none => pollLoop env gid fuel (i + 1)
    else some { err := some deadlineError, reads := i }

/-- Embedding of the check returned by `testAccCheckGitlabGroupDisappears`
(resource_gitlab_group_test.go, lines 262-286), run on a group with the given fuel. -/
def testAccCheckGitlabGroupDisappears (env : PollEnv) (group : Group) (fuel : Nat) :
    Option PollOutcome :=
  match (env.DeleteGroup group.ID).err with
  | some err => some { err := some err, reads := 0 }
  | none => pollLoop env group.ID fuel 0

/-! ## Concrete inputs -/

/-- A commit as the remote returns it. -/
def exampleCommit : Commit :=
  { ID := "7b5c3cc8be40ee161ae89a06bba6229da1032a0c",
    ShortID := "7b5c3cc",
    Title := "add projects API",
    AuthorName := "John Smith",
    AuthorEmail := "john@example.com",
    AuthoredDate := some { String := "2012-06-27 05:51:39 -0700 -0700" },
    CommitterName := "Jane Roe",
    CommitterEmail := "jane@example.com",
    CommittedDate := some { String := "2012-06-28 03:44:20 -0700 -0700" },
    Message := "add projects API",
    ParentIDs := ["4ad91d3c1144c406e50c7b33bae684bd6837faf8"] }

/-- The same commit as the remote returns it without an authored date. -/
def exampleUndatedCommit : Commit :=
  { exampleCommit with AuthoredDate := none }

/-- A branch of the given name as the remote returns it. -/
def exampleBranch (name : String) : Branch :=
  { Commit := some exampleCommit,
    Name := name,
    Protected := false,
    Default := false,
    CanPush := true,
    DevelopersCanPush := false,
    DevelopersCanMerge := false,
    Merged := false,
    WebURL := "https://gitlab.example.com/foo/-/tree/" ++ name }

/-- A small remote whose state lists the (project, branch) pairs that exist: creating adds a
pair, a lookup of a missing pair answers 404 with an error. -/
def exampleClient : Client (List (String × String)) :=
  { CreateBranch := fun pid opt w =>
      if (pid, opt.Branch.getD "") ∈ w then
        ({ branch := none, resp := some { StatusCode := 400 },
           err := some { Error := "400 Branch already exists" } }, w)
      else
        ({ branch := some (exampleBranch (opt.Branch.getD "")),
           resp := some { StatusCode := 201 }, err := none }, (pid, opt.Branch.getD "") :: w),
    GetBranch := fun pid name w =>
      if (pid, name) ∈ w then
        ({ branch := some (exampleBranch name), resp := some { StatusCode := 200 },
           err := none }, w)
      else
        ({ branch := none, resp := some { StatusCode := 404 },
           err := some { Error := "404 Branch Not Found" } }, w),
    DeleteBranch := fun pid name w =>
      if (pid, name) ∈ w then
        ({ resp := some { StatusCode := 204 }, err := none }, w.filter (· ≠ (pid, name)))
      else
        ({ resp := some { StatusCode := 404 },
           err := some { Error := "404 Branch Not Found" } }, w) }

/-- Resource data of a branch `name` of project `project` declared without `ref`, with the
given identifier. -/
def exampleData (id project name : String) : ResourceData :=
  { Id := id,
    attrs := fun k =>
      if k = "name" then some (.string name)
      else if k = "project" then some (.string project)
      else none }

/-- Resource data of the same declared branch after a refresh wrote computed attributes. -/
def exampleRefreshedData (id project name : String) : ResourceData :=
  (((exampleData id project name).Set "web_url" (.string "https://gitlab.example.com/x")).1.Set
    "protected" (.bool true)).1

/-- Resource data of a branch `name` of project `project` with `ref` stored, with the given
identifier. -/
def exampleStoredData (id project name ref : String) : ResourceData :=
  { Id := id,
    attrs := fun k =>
      if k = "name" then some (.string name)
      else if k = "project" then some (.string project)
      else if k = "ref" then some (.string ref)
      else none }

/-- A remote on which every lookup succeeds and returns a branch of the requested name whose
commit has no authored date. -/
def exampleUndatedClient : Client Unit :=
  { CreateBranch := fun _ opt w =>
      ({ branch := some { exampleBranch (opt.Branch.getD "") with
                          Commit := some exampleUndatedCommit },
         resp := some { StatusCode := 201 }, err := none }, w),
    GetBranch := fun _ name w =>
      ({ branch := some { exampleBranch name with Commit := some exampleUndatedCommit },
         resp := some { StatusCode := 200 }, err := none }, w),
    DeleteBranch := fun _ _ w => ({ resp := some { StatusCode := 204 }, err := none }, w) }

/-- A group as the remote returns it, with or without a deletion marker. -/
def exampleGroup (marker : Option Time) : Group :=
  { ID := 7, MarkedForDeletionOn := marker }

/-- A run in which every loop test comes 4 seconds after the one before, the delete call
succeeds, the first two reads show the group live and every later read shows it marked for
deletion. -/
def exampleMarkedEnv : PollEnv :=
  { DeleteGroup := fun _ => { resp := some { StatusCode := 202 }, err := none },
    Since := fun i => 4 * Second * i,
    GetGroup := fun i _ =>
      if i < 2 then
        { g := some (exampleGroup none), resp := some { StatusCode := 200 }, err := none }
      else
        { g := some (exampleGroup (some { String := "2020-05-01" })),
          resp := some { StatusCode := 200 }, err := none } }

/-- A run in which every loop test comes 4 seconds after the one before, the delete call
succeeds, the first two reads show the group live and every later read answers 404 with an
error and no group. -/
def exampleNotFoundEnv : PollEnv :=
  { DeleteGroup := fun _ => { resp := some { StatusCode := 202 }, err := none },
    Since := fun i => 4 * Second * i,
    GetGroup := fun i _ =>
      if i < 2 then
        { g := some (exampleGroup none), resp := some { StatusCode := 200 }, err := none }
      else
        { g := none, resp := some { StatusCode := 404 },
          err := some { Error := "404 Group Not Found" } } }

/-- A run in which every loop test comes 4 seconds after the one before, the delete call
succeeds and every read shows the group live. -/
def exampleLiveEnv : PollEnv :=
  { DeleteGroup := fun _ => { resp := some { StatusCode := 202 }, err := none },
    Since := fun i => 4 * Second * i,
    GetGroup := fun _ _ =>
      { g := some (exampleGroup none), resp := some { StatusCode := 200 }, err := none } }

/-- A run in which every loop test comes 4 seconds after the one before, the delete call
succeeds, the first read shows the group live and the second read fails with a server error
and no group. -/
def exampleErrorEnv : PollEnv :=
  { DeleteGroup := fun _ => { resp := some { StatusCode := 202 }, err := none },
    Since := fun i => 4 * Second * i,
    GetGroup := fun i _ =>
      if i < 1 then
        { g := some (exampleGroup none), resp := some { StatusCode := 200 }, err := none }
      else
        { g := none, resp := some { StatusCode := 500 },
          err := some { Error := "500 Internal Server Error" } } }

/-! ## Predicates used in the statements -/

/-- The lookup answered with HTTP status 404. -/
def BranchResult.notFound (r : BranchResult) : Bool :=
  match r.resp with
  | some resp => resp.StatusCode == StatusNotFound
  | none => false

/-- The "missing" condition of a read callback, as the SDK takes it: the callback returns nil
and the identifier is empty (`d.SetId("")`). -/
def signalsMissing {σ : Type} (o : Outcome σ) : Prop :=
  o.result = .returned none ∧ o.d.Id = ""

/-- The resource data after lines 159-169 of the read callback: the identifier and the ten
attributes written before `flattenCommit` is called. -/
def readFields (d : ResourceData) (project name ref : String) (branch : Branch) :
    ResourceData :=
  let d := d.SetId (project ++ "-" ++ name)
  let d := (d.Set "name" (.string branch.Name)).1
  let d := (d.Set "project" (.string project)).1
  let d := (d.Set "ref" (.string ref)).1
  let d := (d.Set "web_url" (.string branch.WebURL)).1
  let d := (d.Set "default" (.bool branch.Default)).1
  let d := (d.Set "can_push" (.bool branch.CanPush)).1
  let d := (d.Set "protected" (.bool branch.Protected)).1
  let d := (d.Set "merged" (.bool branch.Merged)).1
  let d := (d.Set "developer_can_merge" (.bool branch.DevelopersCanMerge)).1
  (d.Set "developer_can_push" (.bool branch.DevelopersCanPush)).1

/-- The call is a `CreateBranch`. -/
def Call.isCreateBranch : Call → Bool
  | .CreateBranch _ _ => true
  | _ => false

/-! ## Auxiliary lemmas -/

theorem splitFirst_append (delim : Char) (a b : List Char) (h : delim ∉ a) :
    splitFirst delim (a ++ delim :: b) = some (a, b) := by
  induction a with
  | nil => simp [splitFirst]
  | cons c cs ih =>
    have hc : c ≠ delim := fun e => h (e ▸ List.mem_cons_self c cs)
    have hcs : delim ∉ cs := fun m => h (List.mem_cons_of_mem c m)
    simp [splitFirst, hc, ih hcs]

theorem toList_join (scope name : String) :
    (scope ++ "-" ++ name).toList = scope.toList ++ '-' :: name.toList := by
  simp [String.toList, String.data_append]

theorem join_injective (p1 n1 p2 n2 : String)
    (h1 : '-' ∉ p1.toList) (h2 : '-' ∉ p2.toList)
    (h : p1 ++ "-" ++ n1 = p2 ++ "-" ++ n2) : p1 = p2 ∧ n1 = n2 := by
  have hl : splitFirst '-' (p1 ++ "-" ++ n1).toList = splitFirst '-' (p2 ++ "-" ++ n2).toList := by
    rw [h]
  rw [toList_join, toList_join, splitFirst_append _ _ _ h1, splitFirst_append _ _ _ h2] at hl
  simp only [Option.some.injEq, Prod.mk.injEq] at hl
  exact ⟨String.toList_inj.mp hl.1, String.toList_inj.mp hl.2⟩

theorem ResourceData_ext (a b : ResourceData) (hId : a.Id = b.Id)
    (hattrs : ∀ k, a.attrs k = b.attrs k) : a = b := by
  cases a
  cases b
  simp only [ResourceData.mk.injEq]
  exact ⟨hId, funext hattrs⟩

/-- A `d.Set` either writes the value or leaves the resource data as they are. -/
theorem Set_cases (d : ResourceData) (k : String) (v : Value) :
    (d.Set k v).1 = d.store k v ∨ (d.Set k v).1 = d := by
  unfold ResourceData.Set
  split
  · split
    · exact Or.inl rfl
    · exact Or.inr rfl
  · exact Or.inr rfl

theorem Set_of_fits (d : ResourceData) (k : String) (v : Value) (s : Schema)
    (hs : branchSchema.lookup k = some s) (hf : valueFits s v = true) :
    (d.Set k v).1 = d.store k v := by
  simp [ResourceData.Set, hs, hf]

theorem Set_of_not_fits (d : ResourceData) (k : String) (v : Value) (s : Schema)
    (hs : branchSchema.lookup k = some s) (hf : valueFits s v = false) :
    (d.Set k v).1 = d := by
  simp [ResourceData.Set, hs, hf]

@[simp] theorem Set_Id (d : ResourceData) (k : String) (v : Value) :
    (d.Set k v).1.Id = d.Id := by
  rcases Set_cases d k v with h | h <;> rw [h]
  rfl

@[simp] theorem SetId_Id (d : ResourceData) (v : String) : (d.SetId v).Id = v := rfl

theorem Set_attrs_other (d : ResourceData) (k k2 : String) (v : Value) (h : k2 ≠ k) :
    (d.Set k v).1.attrs k2 = d.attrs k2 := by
  rcases Set_cases d k v with e | e <;> rw [e]
  simp [ResourceData.store, h]

theorem Get_Set_other (d : ResourceData) (k k2 : String) (v : Value) (h : k2 ≠ k) :
    (d.Set k v).1.Get k2 = d.Get k2 := by
  simp only [ResourceData.Get, Set_attrs_other d k k2 v h]

theorem store_absorb (d : ResourceData) (k : String) (v : Value) (h : d.attrs k = some v) :
    d.store k v = d := by
  apply ResourceData_ext
  · rfl
  · intro k2
    by_cases hk : k2 = k
    · simp [ResourceData.store, hk, h]
    · simp [ResourceData.store, hk]

/-- Writing under a key the value it already holds changes nothing. -/
theorem Set_absorb (d : ResourceData) (k : String) (v : Value) (h : d.attrs k = some v) :
    (d.Set k v).1 = d := by
  rcases Set_cases d k v with e | e <;> rw [e]
  exact store_absorb d k v h

/-- Repeating a `d.Set` changes nothing. -/
theorem Set_idem (d : ResourceData) (k : String) (v : Value) :
    ((d.Set k v).1.Set k v).1 = (d.Set k v).1 := by
  unfold ResourceData.Set
  split
  · split
    · rename_i hf
      simp only [hf, if_true]
      exact store_absorb _ k v (by simp [ResourceData.store])
    · rename_i hf
      simp only [hf]
      rfl
  · rfl

theorem SetId_absorb (d : ResourceData) (v : String) (h : d.Id = v) : d.SetId v = d := by
  apply ResourceData_ext
  · exact h.symm
  · intro _; rfl

theorem Set_string (d : ResourceData) (k x : String)
    (h : (branchSchema.lookup k).map Schema.Typ = some .TypeString) :
    (d.Set k (.string x)).1 = d.store k (.string x) := by
  cases hs : branchSchema.lookup k with
  | none => simp [hs] at h
  | some s =>
    simp only [hs, Option.map_some', Option.some.injEq] at h
    exact Set_of_fits d k _ s hs (by simp [valueFits, h])

theorem Set_bool (d : ResourceData) (k : String) (x : Bool)
    (h : (branchSchema.lookup k).map Schema.Typ = some .TypeBool) :
    (d.Set k (.bool x)).1 = d.store k (.bool x) := by
  cases hs : branchSchema.lookup k with
  | none => simp [hs] at h
  | some s =>
    simp only [hs, Option.map_some', Option.some.injEq] at h
    exact Set_of_fits d k _ s hs (by simp [valueFits, h])

/-- The resource data after lines 159-169, with each accepted write spelled out. -/
theorem readFields_eq (d : ResourceData) (project name ref : String) (branch : Branch) :
    readFields d project name ref branch =
      ((((((((((d.SetId (project ++ "-" ++ name)).store
        "name" (.string branch.Name)).store
        "project" (.string project)).store
        "ref" (.string ref)).store
        "web_url" (.string branch.WebURL)).store
        "default" (.bool branch.Default)).store
        "can_push" (.bool branch.CanPush)).store
        "protected" (.bool branch.Protected)).store
        "merged" (.bool branch.Merged)).store
        "developer_can_merge" (.bool branch.DevelopersCanMerge)).store
        "developer_can_push" (.bool branch.DevelopersCanPush) := by
  simp only [readFields, Set_string _ "name" _ (by decide), Set_string _ "project" _ (by decide),
    Set_string _ "ref" _ (by decide), Set_string _ "web_url" _ (by decide),
    Set_bool _ "default" _ (by decide), Set_bool _ "can_push" _ (by decide),
    Set_bool _ "protected" _ (by decide), Set_bool _ "merged" _ (by decide),
    Set_bool _ "developer_can_merge" _ (by decide),
    Set_bool _ "developer_can_push" _ (by decide)]

theorem readFields_Id (d : ResourceData) (project name ref : String) (branch : Branch) :
    (readFields d project name ref branch).Id = project ++ "-" ++ name := by
  rw [readFields_eq]
  rfl

/-- The values of the ten attributes after lines 159-169. -/
theorem readFields_attrs (d : ResourceData) (project name ref : String) (branch : Branch) :
    (readFields d project name ref branch).attrs "name" = some (.string branch.Name) ∧
    (readFields d project name ref branch).attrs "project" = some (.string project) ∧
    (readFields d project name ref branch).attrs "ref" = some (.string ref) ∧
    (readFields d project name ref branch).attrs "web_url" = some (.string branch.WebURL) ∧
    (readFields d project name ref branch).attrs "default" = some (.bool branch.Default) ∧
    (readFields d project name ref branch).attrs "can_push" = some (.bool branch.CanPush) ∧
    (readFields d project name ref branch).attrs "protected"
      = some (.bool branch.Protected) ∧
    (readFields d project name ref branch).attrs "merged" = some (.bool branch.Merged) ∧
    (readFields d project name ref branch).attrs "developer_can_merge"
      = some (.bool branch.DevelopersCanMerge) ∧
    (readFields d project name ref branch).attrs "developer_can_push"
      = some (.bool branch.DevelopersCanPush) ∧
    (readFields d project name ref branch).attrs "commit" = d.attrs "commit" := by
  rw [readFields_eq]
  simp [ResourceData.store, ResourceData.SetId]

/-- Lines 159-169 change nothing on resource data that already hold what they write. -/
theorem readFields_absorb (d : ResourceData) (project name ref : String) (branch : Branch)
    (hId : d.Id = project ++ "-" ++ name)
    (h1 : d.attrs "name" = some (.string branch.Name))
    (h2 : d.attrs "project" = some (.string project))
    (h3 : d.attrs "ref" = some (.string ref))
    (h4 : d.attrs "web_url" = some (.string branch.WebURL))
    (h5 : d.attrs "default" = some (.bool branch.Default))
    (h6 : d.attrs "can_push" = some (.bool branch.CanPush))
    (h7 : d.attrs "protected" = some (.bool branch.Protected))
    (h8 : d.attrs "merged" = some (.bool branch.Merged))
    (h9 : d.attrs "developer_can_merge" = some (.bool branch.DevelopersCanMerge))
    (h10 : d.attrs "developer_can_push" = some (.bool branch.DevelopersCanPush)) :
    readFields d project name ref branch = d := by
  simp only [readFields]
  rw [SetId_absorb d _ hId, Set_absorb d _ _ h1, Set_absorb d _ _ h2, Set_absorb d _ _ h3,
    Set_absorb d _ _ h4, Set_absorb d _ _ h5, Set_absorb d _ _ h6, Set_absorb d _ _ h7,
    Set_absorb d _ _ h8, Set_absorb d _ _ h9, Set_absorb d _ _ h10]

theorem read_error {σ : Type} (client : Client σ) (d : ResourceData) (w : σ) (e : GoError)
    (herr : (client.GetBranch (d.Get "project").asString (d.Get "name").asString w).1.err
      = some e) :
    resourceGitlabBranchRead client d w =
      { result := .returned (some e), d := d,
        remote := (client.GetBranch (d.Get "project").asString (d.Get "name").asString w).2,
        calls := [Call.GetBranch (d.Get "project").asString (d.Get "name").asString] } := by
  simp only [resourceGitlabBranchRead, herr]

/-- The read callback when the lookup succeeds and `flattenCommit` returns. -/
theorem read_ok {σ : Type} (client : Client σ) (d : ResourceData) (w : σ)
    (branch : Branch) (values : Slice CommitMap)
    (herr : (client.GetBranch (d.Get "project").asString (d.Get "name").asString w).1.err
      = none)
    (hbranch : (client.GetBranch (d.Get "project").asString (d.Get "name").asString w).1.branch
      = some branch)
    (hflat : flattenCommit branch.Commit = .ok values) :
    resourceGitlabBranchRead client d w =
      { result := .returned none,
        d := ((readFields d (d.Get "project").asString (d.Get "name").asString
          (d.Get "ref").asString branch).Set "commit" (.list values)).1,
        remote := (client.GetBranch (d.Get "project").asString (d.Get "name").asString w).2,
        calls := [Call.GetBranch (d.Get "project").asString (d.Get "name").asString] } := by
  simp only [resourceGitlabBranchRead, herr, hbranch, hflat, readFields]

/-- The read callback when the lookup succeeds and `flattenCommit` panics. -/
theorem read_panic {σ : Type} (client : Client σ) (d : ResourceData) (w : σ)
    (branch : Branch)
    (herr : (client.GetBranch (d.Get "project").asString (d.Get "name").asString w).1.err
      = none)
    (hbranch : (client.GetBranch (d.Get "project").asString (d.Get "name").asString w).1.branch
      = some branch)
    (hflat : flattenCommit branch.Commit = .panic) :
    resourceGitlabBranchRead client d w =
      { result := .panicked,
        d := readFields d (d.Get "project").asString (d.Get "name").asString
          (d.Get "ref").asString branch,
        remote := (client.GetBranch (d.Get "project").asString (d.Get "name").asString w).2,
        calls := [Call.GetBranch (d.Get "project").asString (d.Get "name").asString] } := by
  simp only [resourceGitlabBranchRead, herr, hbranch, hflat, readFields]

/-- The identifier after a lookup that succeeds. -/
theorem read_Id {σ : Type} (client : Client σ) (d : ResourceData) (w : σ) (branch : Branch)
    (herr : (client.GetBranch (d.Get "project").asString (d.Get "name").asString w).1.err
      = none)
    (hbranch : (client.GetBranch (d.Get "project").asString (d.Get "name").asString w).1.branch
      = some branch) :
    (resourceGitlabBranchRead client d w).d.Id
      = (d.Get "project").asString ++ "-" ++ (d.Get "name").asString := by
  cases hflat : flattenCommit branch.Commit with
  | ok values =>
    rw [read_ok client d w branch values herr hbranch hflat]
    simp only [Set_Id, readFields_Id]
  | panic =>
    rw [read_panic client d w branch herr hbranch hflat]
    simp only [readFields_Id]

theorem read_calls {σ : Type} (client : Client σ) (d : ResourceData) (w : σ) :
    (resourceGitlabBranchRead client d w).calls
      = [Call.GetBranch (d.Get "project").asString (d.Get "name").asString] := by
  unfold resourceGitlabBranchRead
  dsimp only
  split
  · rfl
  · split
    · rfl
    · split <;> rfl

/-- While every read is issued within the deadline and shows neither 404, nor a deletion
marker, nor an error, the loop goes on to the next iteration. -/
theorem pollLoop_continue (env : PollEnv) (gid : Int) (n : Nat) :
    ∀ (i fuel : Nat),
      (∀ j, i ≤ j → j < i + n →
        env.Since j < 15 * Second ∧ (env.GetGroup j gid).notFound = false ∧
        (env.GetGroup j gid).marked = false ∧ (env.GetGroup j gid).err = none) →
      pollLoop env gid (fuel + n) i = pollLoop env gid fuel (i + n) := by
  induction n with
  | zero => intro i fuel _; rfl
  | succ n ih =>
    intro i fuel h
    obtain ⟨ht, h404, hmark, herr⟩ := h i (Nat.le_refl i) (by omega)
    have hstep : pollLoop env gid (fuel + n + 1) i = pollLoop env gid (fuel + n) (i + 1) := by
      simp [pollLoop, ht, h404, hmark, herr]
    rw [← Nat.add_assoc, hstep, ih (i + 1) fuel (fun j h1 h2 => h j (by omega) (by omega))]
    congr 1
    omega

theorem notFound_false_of (r : GroupResult)
    (h : ∀ resp, r.resp = some resp → resp.StatusCode ≠ 404) : r.notFound = false := by
  unfold GroupResult.notFound
  cases hr : r.resp with
  | none => rfl
  | some resp => simpa [StatusNotFound] using h resp hr

theorem marked_false_of (r : GroupResult)
    (h : ∀ g, r.g = some g → g.MarkedForDeletionOn = none) : r.marked = false := by
  unfold GroupResult.marked
  cases hg : r.g with
  | none => rfl
  | some g => simp [h g hg]

/-- Whenever `flattenCommit` returns, it returns a non-nil slice whose length is 0 exactly for
a nil commit and 1 exactly for a present one. -/
theorem flattenCommit_ok_shape (commit : Option Commit) (values : Slice CommitMap)
    (h : flattenCommit commit = .ok values) :
    values ≠ none ∧ (values.len = 0 ↔ commit = none) ∧ (values.len = 1 ↔ commit ≠ none) := by
  unfold flattenCommit at h
  split at h
  · cases h
    simp [Slice.len]
  · split at h
    · cases h
    · split at h
      · cases h
      · cases h
        simp [Slice.len]

/-- The slice `flattenCommit` returns for a present commit is refused by `d.Set`: its map
carries the key commiter_name, which the commit schema does not declare. -/
theorem Set_commit_refused (d : ResourceData) (c : Commit) (values : Slice CommitMap)
    (h : flattenCommit (some c) = .ok values) :
    (d.Set "commit" (.list values)).1 = d ∧ (d.Set "commit" (.list values)).2.isSome = true := by
  unfold flattenCommit at h
  dsimp only at h
  split at h
  · cases h
  · split at h
    · cases h
    · cases h
      exact ⟨rfl, rfl⟩

/-! ## Properties -/

/-- C1, the code at a concrete commit: on a present commit whose authored date is nil,
`flattenCommit` panics at line 198 and returns no slice at all; it returns the empty non-nil
slice on a nil commit and does not panic on the same commit with both dates. -/
theorem flattenCommit_panics_on_nil_date :
    flattenCommit (some exampleUndatedCommit) = .panic ∧
    flattenCommit (some exampleCommit) ≠ .panic ∧
    flattenCommit none = .ok (some []) :=
  ⟨by decide, by decide, by decide⟩

/-- C2: when neither the project (scope) nor the branch name contains '-', decoding the
identifier that a successful read sets, "<scope>-<name>", succeeds and returns exactly the
pair (scope, name). -/
theorem parseTwoPartID_read_id {σ : Type} (client : Client σ) (d : ResourceData) (w : σ)
    (scope name : String) (branch : Branch)
    (hscope : '-' ∉ scope.toList) (_hname : '-' ∉ name.toList)
    (hp : d.Get "project" = .string scope) (hn : d.Get "name" = .string name)
    (herr : (client.GetBranch scope name w).1.err = none)
    (hbranch : (client.GetBranch scope name w).1.branch = some branch) :
    parseTwoPartID (resourceGitlabBranchRead client d w).d.Id = .ok (scope, name) := by
  have hp' : (d.Get "project").asString = scope := by rw [hp]; rfl
  have hn' : (d.Get "name").asString = name := by rw [hn]; rfl
  rw [read_Id client d w branch (by rw [hp', hn']; exact herr)
    (by rw [hp', hn']; exact hbranch), hp', hn']
  unfold parseTwoPartID
  rw [toList_join, splitFirst_append _ _ _ hscope]
  rfl

/-- Witness of C2: project "42" and branch "main" on a remote where the branch exists. -/
theorem parseTwoPartID_read_id_witness :
    parseTwoPartID
      (resourceGitlabBranchRead exampleClient (exampleData "" "42" "main") [("42", "main")]).d.Id
      = .ok ("42", "main") :=
  parseTwoPartID_read_id exampleClient (exampleData "" "42" "main") [("42", "main")]
    "42" "main" (exampleBranch "main") (by decide) (by decide) rfl rfl rfl rfl

/-- C3, as the code has it: when the lookup answers 404 together with its error `e`, the read
returns `e` itself, as for any other lookup error, and leaves the identifier and every
attribute as they were; the resource is not marked absent. -/
theorem read_not_found_returns_error {σ : Type} (client : Client σ) (d : ResourceData) (w : σ)
    (e : GoError)
    (_h404 : (client.GetBranch (d.Get "project").asString (d.Get "name").asString w).1.notFound
      = true)
    (herr : (client.GetBranch (d.Get "project").asString (d.Get "name").asString w).1.err
      = some e) :
    (resourceGitlabBranchRead client d w).result = .returned (some e) ∧
    (resourceGitlabBranchRead client d w).d = d ∧
    ¬ signalsMissing (resourceGitlabBranchRead client d w) := by
  rw [read_error client d w e herr]
  simp [signalsMissing]

/-- Witness of C3 as amended: the branch "gone" of project "42" on an empty remote. -/
theorem read_not_found_returns_error_witness :
    (resourceGitlabBranchRead exampleClient (exampleData "42-gone" "42" "gone") []).result
      = .returned (some { Error := "404 Branch Not Found" }) ∧
    (resourceGitlabBranchRead exampleClient (exampleData "42-gone" "42" "gone") []).d
      = exampleData "42-gone" "42" "gone" ∧
    ¬ signalsMissing
      (resourceGitlabBranchRead exampleClient (exampleData "42-gone" "42" "gone") []) :=
  read_not_found_returns_error exampleClient (exampleData "42-gone" "42" "gone") []
    { Error := "404 Branch Not Found" } rfl rfl

/-- Counterexample to C3 as stated: the lookup of the branch "gone" answers 404, and the read
returns that lookup's error and keeps the identifier "42-gone"; it does not signal the
missing condition. -/
theorem read_not_found_counterexample :
    (exampleClient.GetBranch "42" "gone" []).1.notFound = true ∧
    (resourceGitlabBranchRead exampleClient (exampleData "42-gone" "42" "gone") []).result
      = .returned (some { Error := "404 Branch Not Found" }) ∧
    (resourceGitlabBranchRead exampleClient (exampleData "42-gone" "42" "gone") []).d.Id
      = "42-gone" ∧
    ¬ signalsMissing
      (resourceGitlabBranchRead exampleClient (exampleData "42-gone" "42" "gone") []) := by
  refine ⟨by decide, by decide, by decide, ?_⟩
  intro h
  exact absurd h.1 (by decide)

/-- C4: after a successful `DeleteGroup`, while the reads issued within the deadline (15
seconds, in nanoseconds) carry neither a response of status 404, nor a group with a deletion
marker, nor an error, the poll keeps reading; at the first read within the deadline whose
response has status 404 or whose group has a non-nil `MarkedForDeletionOn` it returns nil,
and that read (number `k`, counted from 0) is the last one it issues. -/
theorem poll_succeeds_at_first_terminal_read (env : PollEnv) (group : Group) (k fuel : Nat)
    (hdel : (env.DeleteGroup group.ID).err = none)
    (hbefore : ∀ i, i < k →
      env.Since i < 15000000000 ∧
      (∀ resp, (env.GetGroup i group.ID).resp = some resp → resp.StatusCode ≠ 404) ∧
      (∀ g, (env.GetGroup i group.ID).g = some g → g.MarkedForDeletionOn = none) ∧
      (env.GetGroup i group.ID).err = none)
    (htime : env.Since k < 15000000000)
    (hk : (∃ resp, (env.GetGroup k group.ID).resp = some resp ∧ resp.StatusCode = 404) ∨
      (∃ g t, (env.GetGroup k group.ID).g = some g ∧ g.MarkedForDeletionOn = some t))
    (hfuel : k < fuel) :
    testAccCheckGitlabGroupDisappears env group fuel = some { err := none, reads := k + 1 } := by
  obtain ⟨f, rfl⟩ : ∃ f, fuel = (f + 1) + k := ⟨fuel - k - 1, by omega⟩
  have hs : (15 : Int) * Second = 15000000000 := by decide
  simp only [testAccCheckGitlabGroupDisappears, hdel]
  rw [pollLoop_continue env group.ID k 0 (f + 1)
    (fun j _ h2 => by
      obtain ⟨h1, h404, hmark, herr⟩ := hbefore j (by omega)
      exact ⟨by rw [hs]; exact h1, notFound_false_of _ h404, marked_false_of _ hmark, herr⟩),
    Nat.zero_add]
  rcases hk with ⟨resp, hresp, hcode⟩ | ⟨g, t, hg, ht⟩
  · have h404 : (env.GetGroup k group.ID).notFound = true := by
      simp [GroupResult.notFound, hresp, hcode, StatusNotFound]
    simp [pollLoop, hs, htime, h404]
  · have hmark : (env.GetGroup k group.ID).marked = true := by
      simp [GroupResult.marked, hg, ht]
    by_cases h404 : (env.GetGroup k group.ID).notFound = true
    · simp [pollLoop, hs, htime, h404]
    · simp [pollLoop, hs, htime, h404, hmark]

/-- Witness of C4: in the first run the third read (number 2) is the first to answer 404, and
it comes with an error; in the second run the third read is the first to show the deletion
marker. Both runs end with nil after three reads. -/
theorem poll_succeeds_at_first_terminal_read_witness :
    testAccCheckGitlabGroupDisappears exampleNotFoundEnv (exampleGroup none) 10
      = some { err := none, reads := 3 } ∧
    testAccCheckGitlabGroupDisappears exampleMarkedEnv (exampleGroup none) 10
      = some { err := none, reads := 3 } :=
  ⟨poll_succeeds_at_first_terminal_read exampleNotFoundEnv (exampleGroup none) 2 10 rfl
      (fun i hi => by
        have hlt : i < 2 := hi
        refine ⟨?_, ?_, ?_, ?_⟩
        · interval_cases i <;> decide
        · intro resp hresp
          simp only [exampleNotFoundEnv, hlt, if_true, Option.some.injEq] at hresp
          subst hresp
          decide
        · intro g hg
          simp only [exampleNotFoundEnv, hlt, if_true, Option.some.injEq] at hg
          subst hg
          rfl
        · simp only [exampleNotFoundEnv, hlt, if_true])
      (by decide) (Or.inl ⟨{ StatusCode := 404 }, rfl, rfl⟩) (by decide),
   poll_succeeds_at_first_terminal_read exampleMarkedEnv (exampleGroup none) 2 10 rfl
      (fun i hi => by
        have hlt : i < 2 := hi
        refine ⟨?_, ?_, ?_, ?_⟩
        · interval_cases i <;> decide
        · intro resp hresp
          simp only [exampleMarkedEnv, hlt, if_true, Option.some.injEq] at hresp
          subst hresp
          decide
        · intro g hg
          simp only [exampleMarkedEnv, hlt, if_true, Option.some.injEq] at hg
          subst hg
          rfl
        · simp only [exampleMarkedEnv, hlt, if_true])
      (by decide)
      (Or.inr ⟨exampleGroup (some { String := "2020-05-01" }), { String := "2020-05-01" },
        rfl, rfl⟩)
      (by decide)⟩

/-- C5: after a successful `DeleteGroup`, when every read issued before the clock shows 15
seconds returns neither 404, nor a deletion marker, nor an error, and the clock shows 15
seconds or more at the loop's `n`-th test, the poll returns the deadline error built after
the loop, never nil, having issued `n` reads; no remote call of the run returned that
error, since each of them returned a nil error. -/
theorem poll_deadline_exceeded (env : PollEnv) (group : Group) (n fuel : Nat)
    (hdel : (env.DeleteGroup group.ID).err = none)
    (hbefore : ∀ i, i < n →
      env.Since i < 15 * Second ∧ (env.GetGroup i group.ID).notFound = false ∧
      (env.GetGroup i group.ID).marked = false ∧ (env.GetGroup i group.ID).err = none)
    (hdeadline : ¬ env.Since n < 15 * Second)
    (hfuel : n < fuel) :
    testAccCheckGitlabGroupDisappears env group fuel
      = some { err := some deadlineError, reads := n } ∧
    (env.DeleteGroup group.ID).err ≠ some deadlineError ∧
    ∀ i, i < n → (env.GetGroup i group.ID).err ≠ some deadlineError := by
  obtain ⟨f, rfl⟩ : ∃ f, fuel = (f + 1) + n := ⟨fuel - n - 1, by omega⟩
  refine ⟨?_, by simp [hdel], fun i hi => by simp [(hbefore i hi).2.2.2]⟩
  simp only [testAccCheckGitlabGroupDisappears, hdel]
  rw [pollLoop_continue env group.ID n 0 (f + 1)
    (fun j _ h2 => hbefore j (by omega)), Nat.zero_add]
  simp [pollLoop, hdeadline]

/-- Witness of C5: with a loop test every 4 seconds the fifth test (number 4) comes at 16
seconds, after four reads that all show the group live. -/
theorem poll_deadline_exceeded_witness :
    testAccCheckGitlabGroupDisappears exampleLiveEnv (exampleGroup none) 10
      = some { err := some deadlineError, reads := 4 } ∧
    (exampleLiveEnv.DeleteGroup (exampleGroup none).ID).err ≠ some deadlineError ∧
    ∀ i, i < 4 → (exampleLiveEnv.GetGroup i (exampleGroup none).ID).err ≠ some deadlineError :=
  poll_deadline_exceeded exampleLiveEnv (exampleGroup none) 4 10
    rfl (by decide) (by decide) (by decide)

/-- C6: the create callback issues exactly one `CreateBranch` call. When that call returns an
error, the callback returns that error and has issued no other call, and the resource data
(identifier included) is as before. When it returns no error, the callback ends as the read
callback does on the same resource data and the remote the create call left: same result,
same resource data, same remote, and the read's calls after the create call; the branch and
response the create call returned play no part, since a client whose `CreateBranch` differs
only in them leads to the same outcome. -/
theorem create_once_then_read {σ : Type} (client : Client σ) (d : ResourceData) (w : σ) :
    ((resourceGitlabBranchCreate client d w).calls.filter Call.isCreateBranch).length = 1 ∧
    (match (client.CreateBranch (d.Get "project").asString
        { Branch := some (d.Get "name").asString, Ref := some (d.Get "ref").asString } w) with
      | (r, w1) =>
        match r.err with
        | some e =>
          (resourceGitlabBranchCreate client d w).result = .returned (some e) ∧
          (resourceGitlabBranchCreate client d w).calls =
            [Call.CreateBranch (d.Get "project").asString
              { Branch := some (d.Get "name").asString,
                Ref := some (d.Get "ref").asString }] ∧
          (resourceGitlabBranchCreate client d w).d = d ∧
          (resourceGitlabBranchCreate client d w).remote = w1
        | none =>
          (resourceGitlabBranchCreate client d w).result
            = (resourceGitlabBranchRead client d w1).result ∧
          (resourceGitlabBranchCreate client d w).d
            = (resourceGitlabBranchRead client d w1).d ∧
          (resourceGitlabBranchCreate client d w).remote
            = (resourceGitlabBranchRead client d w1).remote ∧
          (resourceGitlabBranchCreate client d w).calls =
            Call.CreateBranch (d.Get "project").asString
              { Branch := some (d.Get "name").asString, Ref := some (d.Get "ref").asString }
              :: (resourceGitlabBranchRead client d w1).calls) ∧
    (∀ client2 : Client σ,
      client2.GetBranch = client.GetBranch →
      (∀ pid opt w0, (client2.CreateBranch pid opt w0).1.err
          = (client.CreateBranch pid opt w0).1.err ∧
        (client2.CreateBranch pid opt w0).2 = (client.CreateBranch pid opt w0).2) →
      (resourceGitlabBranchCreate client2 d w).result
          = (resourceGitlabBranchCreate client d w).result ∧
        (resourceGitlabBranchCreate client2 d w).d = (resourceGitlabBranchCreate client d w).d ∧
        (resourceGitlabBranchCreate client2 d w).remote
          = (resourceGitlabBranchCreate client d w).remote ∧
        (resourceGitlabBranchCreate client2 d w).calls
          = (resourceGitlabBranchCreate client d w).calls) := by
  refine ⟨?_, ?_, ?_⟩
  · unfold resourceGitlabBranchCreate
    cases h : (client.CreateBranch (d.Get "project").asString
        { Branch := some (d.Get "name").asString, Ref := some (d.Get "ref").asString } w).1.err
    · simp [h, read_calls, Call.isCreateBranch]
    · simp [h, Call.isCreateBranch]
  · unfold resourceGitlabBranchCreate
    cases h : (client.CreateBranch (d.Get "project").asString
        { Branch := some (d.Get "name").asString, Ref := some (d.Get "ref").asString } w).1.err
    · simp [h]
    · simp [h]
  · intro client2 hget hcreate
    have h1 := (hcreate (d.Get "project").asString
      { Branch := some (d.Get "name").asString, Ref := some (d.Get "ref").asString } w).1
    have h2 := (hcreate (d.Get "project").asString
      { Branch := some (d.Get "name").asString, Ref := some (d.Get "ref").asString } w).2
    unfold resourceGitlabBranchCreate resourceGitlabBranchRead
    simp only [h1, h2, hget]
    cases (client.CreateBranch (d.Get "project").asString
        { Branch := some (d.Get "name").asString, Ref := some (d.Get "ref").asString } w).1.err
    · simp
    · simp

/-- C7, the code at concrete inputs: the lookup of the branch "main" of project "42" succeeds
with a branch whose commit has both dates, and the read returns nil; `flattenCommit` returns
a one-element slice, `d.Set` refuses it and returns an error, which line 170 drops, and the
commit attribute reads as the empty list, not as that slice. On a remote whose branch
carries a commit without authored date the read panics instead of returning. -/
theorem read_leaves_commit_unset :
    (resourceGitlabBranchRead exampleClient (exampleData "" "42" "main")
      [("42", "main")]).result = .returned none ∧
    (∃ values, flattenCommit (exampleBranch "main").Commit = .ok values ∧
      values.len = 1 ∧
      ((exampleData "" "42" "main").Set "commit" (.list values)).2.isSome = true ∧
      (resourceGitlabBranchRead exampleClient (exampleData "" "42" "main")
        [("42", "main")]).d.Get "commit" ≠ .list values) ∧
    (resourceGitlabBranchRead exampleClient (exampleData "" "42" "main")
      [("42", "main")]).d.Get "commit" = .list (some []) ∧
    (resourceGitlabBranchRead exampleUndatedClient (exampleData "" "42" "main") ()).result
      = .panicked :=
  ⟨by decide, ⟨_, rfl, by decide, by decide, by decide⟩, by decide, by decide⟩

/-- C8, the code at a concrete commit: the map `flattenCommit` builds has no entry under the
schema attribute committer_name; the committer's name is stored under commiter_name, which is
not an attribute of the commit schema, so the keys of the map are not the schema's. -/
theorem flattenCommit_committer_name_key :
    (match flattenCommit (some exampleCommit) with
      | .ok values => values.map (List.map (List.lookup "committer_name"))
      | .panic => none) = some [none] ∧
    (match flattenCommit (some exampleCommit) with
      | .ok values => values.map (List.map (List.lookup "commiter_name"))
      | .panic => none) = some [some (.string exampleCommit.CommitterName)] ∧
    "committer_name" ∈ commitSchema.map Prod.fst ∧
    "commiter_name" ∉ commitSchema.map Prod.fst :=
  ⟨by decide, by decide, by decide, by decide⟩

/-- C9: in the branch resource, name, project and ref are all marked force-new, and the
resource has create, read and delete callbacks and no update callback. -/
theorem branch_force_new_without_update (σ : Type) :
    ((resourceGitlabBranch σ).Schema.lookup "name").map Schema.ForceNew = some true ∧
    ((resourceGitlabBranch σ).Schema.lookup "project").map Schema.ForceNew = some true ∧
    ((resourceGitlabBranch σ).Schema.lookup "ref").map Schema.ForceNew = some true ∧
    (resourceGitlabBranch σ).Update.isNone = true ∧
    (resourceGitlabBranch σ).Create.isSome = true ∧
    (resourceGitlabBranch σ).Read.isSome = true ∧
    (resourceGitlabBranch σ).Delete.isSome = true := by
  have hname : (branchSchema.lookup "name").map Schema.ForceNew = some true := by decide
  have hproject : (branchSchema.lookup "project").map Schema.ForceNew = some true := by decide
  have href : (branchSchema.lookup "ref").map Schema.ForceNew = some true := by decide
  exact ⟨hname, hproject, href, rfl, rfl, rfl, rfl⟩

/-- C10: the first call of the create callback is `CreateBranch` with the declared project and
with options holding the declared name as `Branch` and the declared ref as `Ref`, the ref
being "master" when none is declared; two states that agree on name, project and ref send
the same request, whatever their other attributes, identifiers, clients and remotes. -/
theorem create_request_only_declared {σ τ : Type} (client : Client σ) (client2 : Client τ)
    (d d2 : ResourceData) (w : σ) (w2 : τ)
    (hname : d2.attrs "name" = d.attrs "name")
    (hproject : d2.attrs "project" = d.attrs "project")
    (href : d2.attrs "ref" = d.attrs "ref") :
    (resourceGitlabBranchCreate client d w).calls.head? =
      some (Call.CreateBranch (d.Get "project").asString
        { Branch := some (d.Get "name").asString, Ref := some (d.Get "ref").asString }) ∧
    (d.Get "ref").asString =
      (match d.attrs "ref" with
       | some v => v.asString
       | none => "master") ∧
    (resourceGitlabBranchCreate client2 d2 w2).calls.head?
      = (resourceGitlabBranchCreate client d w).calls.head? := by
  have hhead : ∀ {ρ : Type} (c : Client ρ) (x : ResourceData) (s : ρ),
      (resourceGitlabBranchCreate c x s).calls.head? =
        some (Call.CreateBranch (x.Get "project").asString
          { Branch := some (x.Get "name").asString, Ref := some (x.Get "ref").asString }) := by
    intro ρ c x s
    unfold resourceGitlabBranchCreate
    dsimp only
    split <;> rfl
  have hget : ∀ k, d2.attrs k = d.attrs k → d2.Get k = d.Get k := by
    intro k hk
    simp only [ResourceData.Get, hk]
  refine ⟨hhead client d w, ?_, ?_⟩
  · unfold ResourceData.Get
    cases d.attrs "ref" <;> rfl
  · rw [hhead, hhead, hget _ hname, hget _ hproject, hget _ href]

/-- Witness of C10: a freshly declared branch and the same branch after a refresh wrote
computed attributes send the same request, with ref "master". -/
theorem create_request_only_declared_witness :
    (resourceGitlabBranchCreate exampleClient (exampleRefreshedData "42-main" "42" "main")
        [("42", "main")]).calls.head?
      = (resourceGitlabBranchCreate exampleClient (exampleData "" "42" "main") []).calls.head? :=
  (create_request_only_declared exampleClient exampleClient (exampleData "" "42" "main")
    (exampleRefreshedData "42-main" "42" "main") [] [("42", "main")] rfl rfl rfl).2.2

/-- C11, as the code has it: in the branch schema the commit attribute and every one of its
nested attributes is computed and none is required; commit itself and every nested attribute
other than id are also marked optional, so that only id is computed and nothing else. -/
theorem commit_schema_computed_and_optional :
    (branchSchema.lookup "commit").map Schema.Computed = some true ∧
    (branchSchema.lookup "commit").map Schema.Required = some false ∧
    (branchSchema.lookup "commit").map Schema.Optional = some true ∧
    (branchSchema.lookup "commit").map Schema.Elem = some (some commitSchema) ∧
    ∀ a ∈ commitSchema,
      a.2.Computed = true ∧ a.2.Required = false ∧ (a.2.Optional = true ↔ a.1 ≠ "id") := by
  decide

/-- Counterexample to C11 as stated: the commit attribute is marked optional, and so is its
nested attribute author_email. -/
theorem commit_schema_optional_counterexample :
    (branchSchema.lookup "commit").map Schema.Optional = some true ∧
    (commitSchema.lookup "author_email").map NestedSchema.Optional = some true := by
  decide

/-- C12: when `GetBranch` returns an error `e`, the read callback returns exactly `e` and the
resource data is as before: same identifier, same value of every attribute. -/
theorem read_error_leaves_state {σ : Type} (client : Client σ) (d : ResourceData) (w : σ)
    (e : GoError)
    (herr : (client.GetBranch (d.Get "project").asString (d.Get "name").asString w).1.err
      = some e) :
    (resourceGitlabBranchRead client d w).result = .returned (some e) ∧
    (resourceGitlabBranchRead client d w).d = d ∧
    (resourceGitlabBranchRead client d w).d.Id = d.Id ∧
    ∀ key, (resourceGitlabBranchRead client d w).d.Get key = d.Get key := by
  rw [read_error client d w e herr]
  exact ⟨rfl, rfl, rfl, fun _ => rfl⟩

/-- Witness of C12: on an empty remote the lookup of the branch "main" of project "42" returns
an error, and the refreshed data of that branch stay as they were. -/
theorem read_error_leaves_state_witness :
    (resourceGitlabBranchRead exampleClient (exampleRefreshedData "42-main" "42" "main")
        []).result = .returned (some { Error := "404 Branch Not Found" }) ∧
    (resourceGitlabBranchRead exampleClient (exampleRefreshedData "42-main" "42" "main")
        []).d = exampleRefreshedData "42-main" "42" "main" :=
  ⟨(read_error_leaves_state exampleClient (exampleRefreshedData "42-main" "42" "main") []
      { Error := "404 Branch Not Found" } rfl).1,
   (read_error_leaves_state exampleClient (exampleRefreshedData "42-main" "42" "main") []
      { Error := "404 Branch Not Found" } rfl).2.1⟩

/-- C13: after a successful `DeleteGroup`, when the reads before number `k` keep the poll
going and read number `k`, issued within the deadline, returns an error `e` with a response
that is not a 404 and with no group carrying a deletion marker, the poll returns exactly `e`
and that read is the last one it issues; the result is neither nil nor produced by the
deadline branch. -/
theorem poll_returns_hard_error (env : PollEnv) (group : Group) (k fuel : Nat) (e : GoError)
    (hdel : (env.DeleteGroup group.ID).err = none)
    (hbefore : ∀ i, i < k →
      env.Since i < 15 * Second ∧ (env.GetGroup i group.ID).notFound = false ∧
      (env.GetGroup i group.ID).marked = false ∧ (env.GetGroup i group.ID).err = none)
    (htime : env.Since k < 15 * Second)
    (h404 : (env.GetGroup k group.ID).notFound = false)
    (hmark : (env.GetGroup k group.ID).marked = false)
    (herr : (env.GetGroup k group.ID).err = some e)
    (hfuel : k < fuel) :
    testAccCheckGitlabGroupDisappears env group fuel = some { err := some e, reads := k + 1 } := by
  obtain ⟨f, rfl⟩ : ∃ f, fuel = (f + 1) + k := ⟨fuel - k - 1, by omega⟩
  simp only [testAccCheckGitlabGroupDisappears, hdel]
  rw [pollLoop_continue env group.ID k 0 (f + 1)
    (fun j _ h2 => hbefore j (by omega)), Nat.zero_add]
  simp [pollLoop, htime, h404, hmark, herr]

/-- Witness of C13: the second read (number 1) fails with status 500. -/
theorem poll_returns_hard_error_witness :
    testAccCheckGitlabGroupDisappears exampleErrorEnv (exampleGroup none) 10
      = some { err := some { Error := "500 Internal Server Error" }, reads := 2 } :=
  poll_returns_hard_error exampleErrorEnv (exampleGroup none) 1 10
    { Error := "500 Internal Server Error" } rfl (by decide) (by decide) (by decide)
    (by decide) (by decide) (by decide)

/-- C14: the pairs ("a-b", "c") and ("a", "b-c") are distinct, the first contains '-' in its
project and the second in its name, both reads succeed, and both set the same identifier
"a-b-c". -/
theorem read_identifier_ambiguous :
    (("a-b", "c") : String × String) ≠ ("a", "b-c") ∧
    '-' ∈ "a-b".toList ∧ '-' ∈ "b-c".toList ∧
    (resourceGitlabBranchRead exampleClient (exampleData "" "a-b" "c")
      [("a-b", "c"), ("a", "b-c")]).result = .returned none ∧
    (resourceGitlabBranchRead exampleClient (exampleData "" "a" "b-c")
      [("a-b", "c"), ("a", "b-c")]).result = .returned none ∧
    (resourceGitlabBranchRead exampleClient (exampleData "" "a-b" "c")
      [("a-b", "c"), ("a", "b-c")]).d.Id = "a-b-c" ∧
    (resourceGitlabBranchRead exampleClient (exampleData "" "a" "b-c")
      [("a-b", "c"), ("a", "b-c")]).d.Id = "a-b-c" := by
  decide

/-- C15: when two successful reads, of project `p1` and name `n1` and of project `p2` and
name `n2`, set the same identifier and neither project contains '-', then `p1 = p2` and
`n1 = n2`, whether or not the names contain '-'. -/
theorem read_identifier_injective {σ τ : Type} (client : Client σ) (client2 : Client τ)
    (d d2 : ResourceData) (w : σ) (w2 : τ) (p1 n1 p2 n2 : String) (b1 b2 : Branch)
    (h1 : '-' ∉ p1.toList) (h2 : '-' ∉ p2.toList)
    (hp1 : d.Get "project" = .string p1) (hn1 : d.Get "name" = .string n1)
    (hp2 : d2.Get "project" = .string p2) (hn2 : d2.Get "name" = .string n2)
    (herr1 : (client.GetBranch p1 n1 w).1.err = none)
    (hbranch1 : (client.GetBranch p1 n1 w).1.branch = some b1)
    (herr2 : (client2.GetBranch p2 n2 w2).1.err = none)
    (hbranch2 : (client2.GetBranch p2 n2 w2).1.branch = some b2)
    (hid : (resourceGitlabBranchRead client d w).d.Id
      = (resourceGitlabBranchRead client2 d2 w2).d.Id) :
    p1 = p2 ∧ n1 = n2 := by
  have hp1' : (d.Get "project").asString = p1 := by rw [hp1]; rfl
  have hn1' : (d.Get "name").asString = n1 := by rw [hn1]; rfl
  have hp2' : (d2.Get "project").asString = p2 := by rw [hp2]; rfl
  have hn2' : (d2.Get "name").asString = n2 := by rw [hn2]; rfl
  rw [read_Id client d w b1 (by rw [hp1', hn1']; exact herr1)
      (by rw [hp1', hn1']; exact hbranch1),
    read_Id client2 d2 w2 b2 (by rw [hp2', hn2']; exact herr2)
      (by rw [hp2', hn2']; exact hbranch2), hp1', hn1', hp2', hn2'] at hid
  exact join_injective p1 n1 p2 n2 h1 h2 hid

/-- Witness of C15: project "42" and name "testbranch-1", whose name contains '-'. -/
theorem read_identifier_injective_witness :
    (resourceGitlabBranchRead exampleClient (exampleData "" "42" "testbranch-1")
        [("42", "testbranch-1")]).d.Id = "42-testbranch-1" ∧
    ("42" = "42" ∧ "testbranch-1" = "testbranch-1") :=
  ⟨by decide,
   read_identifier_injective exampleClient exampleClient (exampleData "" "42" "testbranch-1")
    (exampleData "old" "42" "testbranch-1") [("42", "testbranch-1")] [("42", "testbranch-1")]
    "42" "testbranch-1" "42" "testbranch-1" (exampleBranch "testbranch-1")
    (exampleBranch "testbranch-1") (by decide) (by decide) rfl rfl rfl rfl rfl rfl rfl rfl
    (by decide)⟩

/-- C16: on a state that stores project `p`, name `n` and ref `r`, and a remote that
`GetBranch` leaves as it is and that answers `GetBranch(p, n)` without error with a branch `b`
whose `Name` is `n`: when `flattenCommit(b.Commit)` returns, the read returns nil, a second
read after it returns the same result and leaves the same resource data and remote, and
project and ref read as before the first read; when `flattenCommit(b.Commit)` panics, so
does the read. -/
theorem read_idempotent {σ : Type} (client : Client σ) (d : ResourceData) (w : σ)
    (p n r : String) (b : Branch) (resp : Option Response)
    (hp : d.attrs "project" = some (.string p)) (hn : d.attrs "name" = some (.string n))
    (hr : d.attrs "ref" = some (.string r))
    (hget : client.GetBranch p n w = ({ branch := some b, resp := resp, err := none }, w))
    (hname : b.Name = n) :
    match flattenCommit b.Commit with
    | .panic => (resourceGitlabBranchRead client d w).result = .panicked
    | .ok _ =>
      (resourceGitlabBranchRead client d w).result = .returned none ∧
      (resourceGitlabBranchRead client (resourceGitlabBranchRead client d w).d
          (resourceGitlabBranchRead client d w).remote).result
        = (resourceGitlabBranchRead client d w).result ∧
      (resourceGitlabBranchRead client (resourceGitlabBranchRead client d w).d
          (resourceGitlabBranchRead client d w).remote).d
        = (resourceGitlabBranchRead client d w).d ∧
      (resourceGitlabBranchRead client (resourceGitlabBranchRead client d w).d
          (resourceGitlabBranchRead client d w).remote).remote
        = (resourceGitlabBranchRead client d w).remote ∧
      (resourceGitlabBranchRead client d w).d.Get "project" = d.Get "project" ∧
      (resourceGitlabBranchRead client d w).d.Get "ref" = d.Get "ref" := by
  subst hname
  have gp : d.Get "project" = .string p := by simp only [ResourceData.Get, hp]
  have gn : d.Get "name" = .string b.Name := by simp only [ResourceData.Get, hn]
  have gr : d.Get "ref" = .string r := by simp only [ResourceData.Get, hr]
  have gp' : (d.Get "project").asString = p := by rw [gp]; rfl
  have gn' : (d.Get "name").asString = b.Name := by rw [gn]; rfl
  have gr' : (d.Get "ref").asString = r := by rw [gr]; rfl
  have herr : (client.GetBranch (d.Get "project").asString (d.Get "name").asString w).1.err
      = none := by rw [gp', gn', hget]
  have hbranch : (client.GetBranch (d.Get "project").asString (d.Get "name").asString
      w).1.branch = some b := by rw [gp', gn', hget]
  cases hflat : flattenCommit b.Commit with
  | panic =>
    show (resourceGitlabBranchRead client d w).result = .panicked
    rw [read_panic client d w b herr hbranch hflat]
  | ok values =>
    show (resourceGitlabBranchRead client d w).result = .returned none ∧ _
    have first := read_ok client d w b values herr hbranch hflat
    rw [gp', gn', gr', hget] at first
    rw [first]
    obtain ⟨a1, a2, a3, a4, a5, a6, a7, a8, a9, a10, _⟩ := readFields_attrs d p b.Name r b
    generalize hd1 : ((readFields d p b.Name r b).Set "commit" (.list values)).1 = d1
    have through : ∀ k, k ≠ "commit" → d1.attrs k = (readFields d p b.Name r b).attrs k := by
      intro k hk
      rw [← hd1]
      exact Set_attrs_other _ _ _ _ hk
    have hId : d1.Id = p ++ "-" ++ b.Name := by rw [← hd1, Set_Id, readFields_Id]
    have b1 := (through "name" (by decide)).trans a1
    have b2 := (through "project" (by decide)).trans a2
    have b3 := (through "ref" (by decide)).trans a3
    have b4 := (through "web_url" (by decide)).trans a4
    have b5 := (through "default" (by decide)).trans a5
    have b6 := (through "can_push" (by decide)).trans a6
    have b7 := (through "protected" (by decide)).trans a7
    have b8 := (through "merged" (by decide)).trans a8
    have b9 := (through "developer_can_merge" (by decide)).trans a9
    have b10 := (through "developer_can_push" (by decide)).trans a10
    have hp1 : d1.Get "project" = .string p := by simp only [ResourceData.Get, b2]
    have hn1 : d1.Get "name" = .string b.Name := by simp only [ResourceData.Get, b1]
    have hr1 : d1.Get "ref" = .string r := by simp only [ResourceData.Get, b3]
    have hp1' : (d1.Get "project").asString = p := by rw [hp1]; rfl
    have hn1' : (d1.Get "name").asString = b.Name := by rw [hn1]; rfl
    have hr1' : (d1.Get "ref").asString = r := by rw [hr1]; rfl
    have second := read_ok client d1 w b values (by rw [hp1', hn1', hget])
      (by rw [hp1', hn1', hget]) hflat
    rw [hp1', hn1', hr1', hget,
      readFields_absorb d1 p b.Name r b hId b1 b2 b3 b4 b5 b6 b7 b8 b9 b10] at second
    have hidem : (d1.Set "commit" (.list values)).1 = d1 := by
      rw [← hd1]
      exact Set_idem _ _ _
    rw [hidem] at second
    dsimp only
    rw [second]
    exact ⟨rfl, rfl, rfl, rfl, by rw [hp1, gp], by rw [hr1, gr]⟩

/-- Witness of C16: the branch "main" of project "42" with ref "master" stored, on a remote
where it exists with a commit that has both dates. -/
theorem read_idempotent_witness :
    (resourceGitlabBranchRead exampleClient
        (resourceGitlabBranchRead exampleClient (exampleStoredData "" "42" "main" "master")
          [("42", "main")]).d
        (resourceGitlabBranchRead exampleClient (exampleStoredData "" "42" "main" "master")
          [("42", "main")]).remote).d
      = (resourceGitlabBranchRead exampleClient (exampleStoredData "" "42" "main" "master")
          [("42", "main")]).d :=
  (read_idempotent exampleClient (exampleStoredData "" "42" "main" "master") [("42", "main")]
    "42" "main" "master" (exampleBranch "main") (some { StatusCode := 200 })
    rfl rfl rfl rfl rfl).2.2.1

end Gitlab
